import Mathlib

/-!
Verification development for the log-triage pipeline
(`src/agents/log_analyzer.py` and `src/graph/log_analyzer/nodes.py`).

The Python functions are embedded shallowly:

* strings are Lean `String`s manipulated as `List Char`;
* the Python regexes used by the pipeline (`/[-\w./]+`, `\d+`, `[^a-z\s]`,
  `\s+`, the log-line grammar and `[A-Za-z_]+(?:Error|Exception)`) are
  embedded as explicit character scanners with the same left-to-right,
  greedy, non-overlapping semantics, restricted to ASCII (the inputs the
  pipeline handles are ASCII log lines);
* Python `dict`s keyed by signature are association lists in insertion
  order (CPython dicts preserve insertion order);
* Python `sorted` (a stable sort) is embedded as a stable insertion sort;
* Python floats are embedded as exact rationals; `round(x, 3)` is embedded
  as half-to-even rounding of the exact rational to 3 decimal places;
* the external collaborators (text generation, Jira, Slack, the daily
  dedupe cache) are embedded as explicit oracles / explicit state.
-/

namespace LogTriage

/-! ## Character classes (ASCII fragment of the Python regex classes) -/

/-- Python `\s` (ASCII): space, tab, newline, carriage return, vertical tab, form feed. -/
def isPySpace (c : Char) : Bool :=
  c = ' ' || c = '\t' || c = '\n' || c = '\r' || c = '\x0b' || c = '\x0c'

/-- Python `\d` (ASCII). -/
def isDigitCh (c : Char) : Bool :=
  '0' ≤ c && c ≤ '9'

/-- Python `\w` (ASCII): letters, digits, underscore. -/
def isWordCh (c : Char) : Bool :=
  c.isAlpha || isDigitCh c || c = '_'

/-- The character class `[-\w./]` of the path-stripping regex. -/
def isPathCh (c : Char) : Bool :=
  isWordCh c || c = '-' || c = '.' || c = '/'

/-- The character class `[a-z]`. -/
def isLowerAZ (c : Char) : Bool :=
  'a' ≤ c && c ≤ 'z'

/-- The character class `[A-Za-z_]` of the exception-token regex. -/
def isTokCh (c : Char) : Bool :=
  c.isAlpha || c = '_'

/-! ## The regex substitutions of `compute_signature`

`re.sub(r"/[-\w./]+", " ", s)`: a slash followed by one or more
class characters is replaced by a single space, scanning left to right.
The boolean argument records whether we are currently inside a matched run. -/

def stripPathsGo : Bool → List Char → List Char
  | _, [] => []
  | skip, c :: cs =>
    if skip && isPathCh c then stripPathsGo true cs
    else if c = '/' && (cs.head?.elim false isPathCh) then ' ' :: stripPathsGo true cs
    else c :: stripPathsGo false cs

def stripPaths (cs : List Char) : List Char := stripPathsGo false cs

/-- `re.sub(r"\d+", " ", s)`: every maximal digit run becomes one space. -/
def stripDigitsGo : Bool → List Char → List Char
  | _, [] => []
  | inRun, c :: cs =>
    if isDigitCh c then
      (if inRun then stripDigitsGo true cs else ' ' :: stripDigitsGo true cs)
    else c :: stripDigitsGo false cs

def stripDigits (cs : List Char) : List Char := stripDigitsGo false cs

/-- `re.sub(r"[^a-z\s]", " ", s)`: each single character outside `[a-z\s]` becomes a space. -/
def stripNonLower (cs : List Char) : List Char :=
  cs.map fun c => if isLowerAZ c || isPySpace c then c else ' '

/-- `re.sub(r"\s+", " ", s)`: every maximal whitespace run becomes one space. -/
def collapseWSGo : Bool → List Char → List Char
  | _, [] => []
  | inRun, c :: cs =>
    if isPySpace c then
      (if inRun then collapseWSGo true cs else ' ' :: collapseWSGo true cs)
    else c :: collapseWSGo false cs

def collapseWS (cs : List Char) : List Char := collapseWSGo false cs

/-- Python `str.strip()`: drop leading and trailing whitespace. -/
def pyStrip (cs : List Char) : List Char :=
  ((cs.dropWhile isPySpace).reverse.dropWhile isPySpace).reverse

/-- Python `str.split()` with no argument: split on whitespace runs, dropping
empty tokens.  The accumulator holds the current token, reversed. -/
def pySplitGo : List Char → List Char → List (List Char)
  | acc, [] => if acc.isEmpty then [] else [acc.reverse]
  | acc, c :: cs =>
    if isPySpace c then
      (if acc.isEmpty then pySplitGo [] cs else acc.reverse :: pySplitGo [] cs)
    else pySplitGo (c :: acc) cs

def pySplit (cs : List Char) : List String :=
  (pySplitGo [] cs).map String.mk

/-! ## `compute_signature` (src/agents/log_analyzer.py lines 44-52) -/

/-- The normalization pipeline of `compute_signature` up to tokenization:
lower-case, strip paths, strip digit runs, strip non-letters, collapse
whitespace and trim, then split into whitespace-delimited tokens. -/
def signatureTokens (msg : String) : List String :=
  pySplit (pyStrip (collapseWS (stripNonLower (stripDigits (stripPaths
    (msg.toList.map Char.toLower))))))

/-- Embedding of `compute_signature(msg)` with the default `max_tokens = 4`:
`" ".join(tokens[:4]) if tokens else msg[:32]`. -/
def compute_signature (msg : String) : String :=
  let tokens := signatureTokens msg
  if tokens.isEmpty then String.mk (msg.toList.take 32)
  else " ".intercalate (tokens.take 4)

/-! ## `parse_log_line` (src/agents/log_analyzer.py lines 31-41)

The regex is
`(?P<ts>\d{4}-\d{2}-\d{2} \d{2}:\d{2}:\d{2})\s+\[(?P<level>INFO|WARN|ERROR)\]\s+(?P<msg>.*)`
matched with `re.match` (anchored at the start); the message group is
`.strip()`ed. -/

/-- Check the 19-character timestamp `\d{4}-\d{2}-\d{2} \d{2}:\d{2}:\d{2}`
at the head of the list; on success return the remainder. -/
def checkTs : List Char → Option (List Char)
  | a :: b :: c :: d :: h1 :: e :: f :: h2 :: g :: h :: sp :: i :: j :: c1 :: k :: l :: c2 :: m :: n :: rest =>
    if isDigitCh a && isDigitCh b && isDigitCh c && isDigitCh d && h1 = '-' &&
       isDigitCh e && isDigitCh f && h2 = '-' && isDigitCh g && isDigitCh h &&
       sp = ' ' && isDigitCh i && isDigitCh j && c1 = ':' && isDigitCh k && isDigitCh l &&
       c2 = ':' && isDigitCh m && isDigitCh n
    then some rest else none
  | _ => none

/-- The level alternation `(INFO|WARN|ERROR)\]`: the bracketed level token,
returning the level string and the remainder after the closing bracket. -/
def takeLevel : List Char → Option (String × List Char)
  | 'I' :: 'N' :: 'F' :: 'O' :: ']' :: r => some ("INFO", r)
  | 'W' :: 'A' :: 'R' :: 'N' :: ']' :: r => some ("WARN", r)
  | 'E' :: 'R' :: 'R' :: 'O' :: 'R' :: ']' :: r => some ("ERROR", r)
  | _ => none

/-- Embedding of `parse_log_line(line)`: `(ts, level, msg)` on a grammar
match, `none` otherwise. -/
def parse_log_line (line : String) : Option (String × String × String) :=
  let cs := line.toList
  match checkTs cs with
  | none => none
  | some rest =>
    if (rest.takeWhile isPySpace).isEmpty then none
    else
      match rest.dropWhile isPySpace with
      | '[' :: r3 =>
        match takeLevel r3 with
        | none => none
        | some (lvl, r4) =>
          if (r4.takeWhile isPySpace).isEmpty then none
          else some (String.mk (cs.take 19), lvl, String.mk (pyStrip r4))
      | _ => none

/-! ## `group_events` (src/agents/log_analyzer.py lines 55-78) -/

/-- One aggregation group: the value of the per-signature dict
`{"signature": ..., "count": ..., "levels": {"INFO": ., "WARN": ., "ERROR": .}, "examples": [...]}`. -/
structure LocalGroup where
  signature : String
  count : Nat
  info : Nat
  warn : Nat
  errorCount : Nat
  examples : List String
  deriving DecidableEq, Repr

/-- `g["levels"][level] = g["levels"].get(level, 0) + 1` for the parsed level. -/
def bumpLevel (g : LocalGroup) (lvl : String) : LocalGroup :=
  if lvl = "INFO" then { g with info := g.info + 1 }
  else if lvl = "WARN" then { g with warn := g.warn + 1 }
  else if lvl = "ERROR" then { g with errorCount := g.errorCount + 1 }
  else g

/-- The loop body applied to the group of the line's signature: increment
`count` and the level counter, and append the raw line to `examples` while
fewer than 3 are stored. -/
def touchGroup (g : LocalGroup) (lvl line : String) : LocalGroup :=
  let g1 := { g with count := g.count + 1 }
  let g2 := bumpLevel g1 lvl
  if g2.examples.length < 3 then { g2 with examples := g2.examples ++ [line] }
  else g2

/-- One iteration of the `for line in lines` loop of `group_events`: the
dict of groups is an association list in insertion order. -/
def addLine (gs : List LocalGroup) (line : String) : List LocalGroup :=
  match parse_log_line line with
  | none => gs
  | some (_, lvl, msg) =>
    let sig := compute_signature msg
    if gs.any fun g => g.signature == sig then
      gs.map fun g => if g.signature == sig then touchGroup g lvl line else g
    else
      gs ++ [touchGroup ⟨sig, 0, 0, 0, 0, []⟩ lvl line]

/-- The groups dict after consuming all lines, in insertion
(first-seen-signature) order. -/
def aggList (lines : List String) : List LocalGroup :=
  lines.foldl addLine []

/-- Stable insertion used to embed Python's stable
`sorted(..., key=lambda x: x["count"], reverse=True)`: a new element goes
after every already-placed element of count ≥ its own. -/
def insertStable (g : LocalGroup) : List LocalGroup → List LocalGroup
  | [] => [g]
  | h :: t => if h.count < g.count then g :: h :: t else h :: insertStable g t

/-- Stable descending-by-count sort (elements are inserted left to right,
so ties keep their original relative order). -/
def sortCountDesc (l : List LocalGroup) : List LocalGroup :=
  l.foldl (fun acc g => insertStable g acc) []

/-- Embedding of `group_events(lines)`. -/
def group_events (lines : List String) : List LocalGroup :=
  sortCountDesc (aggList lines)

/-- `total = sum(g["count"] for g in groups)` (line 169). -/
def localTotal (gs : List LocalGroup) : Nat :=
  (gs.map (·.count)).sum

/-- `local_errors = sum(g.get("levels", {}).get("ERROR", 0) for g in groups)` (line 187). -/
def localErrors (gs : List LocalGroup) : Nat :=
  (gs.map (·.errorCount)).sum

/-! ## The exception-token regex `([A-Za-z_]+(?:Error|Exception))`

`re.findall` scans left to right; at each position the engine matches a
maximal greedy run of `[A-Za-z_]`, then backtracks the run one character at
a time until the remainder starts with the literal `Error` or `Exception`.
The match is the letter run followed by that literal. -/

/-- Given the maximal `[A-Za-z_]` run at the current position, find the
largest letter-prefix length `l ≥ 1` (tried from `len - 5` downward, the
greedy backtracking order) such that the run continues with `Error` or
`Exception`; return the total matched length. -/
def findSplit : Nat → List Char → Option Nat
  | 0, _ => none
  | l + 1, run =>
    if ("Error".toList).isPrefixOf (run.drop (l + 1)) then some (l + 1 + 5)
    else if ("Exception".toList).isPrefixOf (run.drop (l + 1)) then some (l + 1 + 9)
    else findSplit l run

/-- Try to match the exception-token regex at the head of `cs`; on success
return the length of the match. -/
def matchExcAt (cs : List Char) : Option Nat :=
  let run := cs.takeWhile isTokCh
  findSplit (run.length - 5) run

/-- The scan loop of `re.findall`: on a match, emit it and continue after
it; otherwise advance one character.  `fuel` starts at the list length
(every step consumes at least one character). -/
def findAllAux : Nat → List Char → List String
  | 0, _ => []
  | _ + 1, [] => []
  | fuel + 1, c :: cs =>
    match matchExcAt (c :: cs) with
    | some n => String.mk ((c :: cs).take n) :: findAllAux fuel ((c :: cs).drop n)
    | none => findAllAux fuel cs

/-- `re.findall(r"([A-Za-z_]+(?:Error|Exception))", line)`. -/
def findAllExc (line : String) : List String :=
  findAllAux line.toList.length line.toList

/-- The duplicate-dropping accumulation `for f in found: if f not in exs: exs.append(f)`,
applied across all example lines: first-seen order, no duplicates. -/
def dedupFirst (l : List String) : List String :=
  l.foldl (fun acc f => if f ∈ acc then acc else acc ++ [f]) []

/-- The token list `exs` collected from a group's example lines
(lines 199-204 of `main`). -/
def extract_exceptions (examples : List String) : List String :=
  dedupFirst (examples.flatMap findAllExc)

/-! ## The LLM findings object

`findings = json.loads(raw)` is an arbitrary JSON object.  Only the fields
the code reads are modelled; a missing key is modelled by `none` (for
fields read with a plain default, the default value stands for a missing
key, matching `dict.get(k, default)`). -/

/-- The value found at `summary["error_rate"]`: a number (Python int/float,
embedded as an exact rational) or some non-numeric JSON value (carried
abstractly, tagged by a string). -/
inductive ErrVal where
  | num (q : ℚ)
  | nonNum (tag : String)
  deriving DecidableEq, Repr

/-- The `summary` dict: only the two keys the code touches. -/
structure PySummary where
  total_events : Option Int
  error_rate : Option ErrVal
  deriving DecidableEq, Repr

/-- An externally supplied `levels` dict (untrusted integers). -/
structure ExtLevels where
  info : Int
  warn : Int
  errorCount : Int
  deriving DecidableEq, Repr

/-- One entry of the externally supplied `findings["groups"]` list.
`probable_root_cause` and `recommendation` are read with default `""`
and tested for Python falsiness, so the empty string models a missing
key. -/
structure ExtGroup where
  signature : Option String
  count : Option Int
  levels : Option ExtLevels
  examples : List String
  probable_root_cause : String
  recommendation : String
  exceptions : List String
  deriving DecidableEq, Repr

/-- The parsed LLM output. -/
structure Findings where
  groups : Option (List ExtGroup)
  summary : Option PySummary
  deriving DecidableEq, Repr

/-- `g.get("signature", "unknown")`. -/
def sigOf (g : ExtGroup) : String :=
  g.signature.getD "unknown"

/-- `int((g.get("levels", {}) or {}).get("ERROR", 0) or 0)`. -/
def errOf (g : ExtGroup) : Int :=
  (g.levels.map (·.errorCount)).getD 0

/-! ## Post-processing of the findings (lines 183-208 of `main`) -/

/-- Python `round(q, 3)` on the exact rational value: round half to even at
the third decimal place.  (CPython rounds the IEEE double; on the exact
decimal values arising here the two agree.) -/
def pyRound3 (q : ℚ) : ℚ :=
  let x := q * 1000
  let f : Int := ⌊x⌋
  let r := x - (f : ℚ)
  let n : Int :=
    if r < 1/2 then f
    else if 1/2 < r then f + 1
    else if f % 2 = 0 then f else f + 1
  (n : ℚ) / 1000

/-- `computed_error_rate = round(local_errors / max(1, total), 3)` (line 188). -/
def computedErrorRate (gs : List LocalGroup) : ℚ :=
  pyRound3 ((localErrors gs : ℚ) / ((max 1 (localTotal gs) : Nat) : ℚ))

/-- The validation `isinstance(er, (int, float)) and 0 <= er <= 1`
guarding whether the externally supplied error rate is kept (line 191). -/
def erInRange : Option ErrVal → Bool
  | some (.num q) => decide (0 ≤ q) && decide (q ≤ 1)
  | _ => false

/-- The heuristic of lines 195-208 applied to one findings group: when
`probable_root_cause` is empty, extract exception tokens from the stored
examples; if any were found, fill `probable_root_cause` (comma-joined) and,
when `recommendation` is also empty, the templated recommendation. -/
def fallbackEnrich (g : ExtGroup) : ExtGroup :=
  if g.probable_root_cause ≠ "" then g
  else
    match extract_exceptions g.examples with
    | [] => g
    | e :: es =>
      { g with
        probable_root_cause := ", ".intercalate (e :: es),
        recommendation :=
          if g.recommendation = "" then "Investigate " ++ e ++ " and related services"
          else g.recommendation }

/-- Lines 183-208 of `main`: make `findings["summary"]` a dict, `setdefault`
`total_events` to the locally computed total, override `error_rate` only
when the supplied value is missing, non-numeric or out of `[0, 1]`, then run
the root-cause fallback over `findings["groups"]`.  The result is the final
report written to `outputs/log_analyzer/log_findings.json`. -/
def postProcess (lg : List LocalGroup) (f : Findings) : Findings :=
  let total : Int := localTotal lg
  let s0 := f.summary.getD ⟨none, none⟩
  let s1 : PySummary := { s0 with total_events := some (s0.total_events.getD total) }
  let s2 : PySummary :=
    if erInRange s1.error_rate then s1
    else { s1 with error_rate := some (.num (computedErrorRate lg)) }
  { groups := f.groups.map (fun gs => gs.map fallbackEnrich), summary := some s2 }

/-- The report's `summary["error_rate"]` slot. -/
def reportErrorRate (f : Findings) : Option ErrVal :=
  (f.summary.getD ⟨none, none⟩).error_rate

/-- The report's `summary["total_events"]` slot. -/
def reportTotal (f : Findings) : Option Int :=
  (f.summary.getD ⟨none, none⟩).total_events

/-- The fields of a findings group that the post-processing never touches
(everything except the two narrative fields). -/
def coreOf (g : ExtGroup) : Option String × Option Int × Option ExtLevels × List String × List String :=
  (g.signature, g.count, g.levels, g.examples, g.exceptions)

/-! ## The text-generation call and its parsing

`call_llm` returns raw text; `json.loads` either parses it or fails.  The
outcome of that external parse is the input of the embedded functions. -/

inductive LLMResult where
  | parsed (f : Findings)
  | unparseable (raw : String)

/-- What `parse_llm_output` persists and returns: on valid JSON the
findings; on a decode failure the raw text is written to
`outputs/log_analyzer/last_raw.json` and a `RuntimeError` is raised
(`.error`), which `main` does not catch. -/
structure ParseOut where
  savedRaw : Option String
  result : Except String Findings

/-- Embedding of `parse_llm_output` (src/agents/log_analyzer.py lines 119-129). -/
def parse_llm_output (r : LLMResult) : ParseOut :=
  match r with
  | .parsed f => ⟨none, .ok f⟩
  | .unparseable raw =>
    ⟨some raw, .error "LLM output was not valid JSON. Raw saved to outputs/log_analyzer/last_raw.json"⟩

def isOkE : Except String Findings → Bool
  | .ok _ => true
  | .error _ => false

/-- The CLI agent's report production (`main`, lines 179-219): parse the
LLM output — an uncaught exception aborts the run — then post-process and
write the report. -/
def cli_report (lg : List LocalGroup) (r : LLMResult) : Except String Findings :=
  match (parse_llm_output r).result with
  | .ok f => .ok (postProcess lg f)
  | .error e => .error e

/-- Embedding of the `try/except` around `json.loads` in
`analyze_with_llm` (src/graph/log_analyzer/nodes.py lines 103-108): on a
decode failure the raw text is saved and the findings fall back to
`{"groups": [], "summary": {"total_events": total}}`; the node returns
normally either way.  Result: (saved raw text, findings). -/
def analyze_with_llm (r : LLMResult) (total : Int) : Option String × Findings :=
  match r with
  | .parsed f => (none, f)
  | .unparseable raw => (some raw, ⟨some [], some ⟨some total, none⟩⟩)

/-! ## The act phase (`main`, lines 222-314)

External collaborators are oracles: the Jira `create_issue` call is a
function from the group being reported to either a response dict or a
raised error (its string arguments are computed from that group, so this
is fully general); the daily dedupe cache is the set of signatures already
recorded today, threaded through the loop (`seen_today` reads it,
`mark_today` adds to it on successful creation). -/

/-- The dict returned by `create_issue`: the code reads `"key"` and `"id"`. -/
structure JiraResp where
  key : Option String
  id : Option String
  deriving DecidableEq, Repr

/-- Python `a or b` on string-or-missing values: a missing or empty string
falls through. -/
def orFalsy : Option String → String → String
  | some s, d => if s = "" then d else s
  | none, d => d

/-- `jres.get("key") or jres.get("id") or "UNKNOWN"` (line 271). -/
def issueKeyOf (jres : JiraResp) : String :=
  orFalsy jres.key (orFalsy jres.id "UNKNOWN")

/-- The evolving state of the ticket loop: `created` is the accumulator of
`(signature, issue_key, errors)` triples; `cache` the dedupe store;
`attempted` the signatures for which `create_issue` was actually called;
`marked` the `mark_today` writes; `failed` the signatures whose creation
raised (recorded in the log). -/
structure ActState where
  created : List (String × String × Int)
  cache : List String
  attempted : List String
  marked : List String
  failed : List String
  deriving DecidableEq, Repr

/-- One iteration of the `for g in groups` ticket loop (lines 233-277):
skip when the ERROR count is not positive; on a dedupe hit append an
`ALREADY_REPORTED` entry without calling Jira; otherwise call Jira, and on
success record the created entry and mark the dedupe cache, on a raise
record the failure and continue. -/
def actStep (jira : ExtGroup → Except String JiraResp) (st : ActState) (g : ExtGroup) : ActState :=
  if errOf g ≤ 0 then st
  else if sigOf g ∈ st.cache then
    { st with created := st.created ++ [(sigOf g, "ALREADY_REPORTED", errOf g)] }
  else
    match jira g with
    | .ok jres =>
      { st with
        created := st.created ++ [(sigOf g, issueKeyOf jres, errOf g)],
        cache := st.cache ++ [sigOf g],
        attempted := st.attempted ++ [sigOf g],
        marked := st.marked ++ [sigOf g] }
    | .error _ =>
      { st with attempted := st.attempted ++ [sigOf g], failed := st.failed ++ [sigOf g] }

/-- The act phase result: the final loop state and, when the Slack summary
block runs, the sequence of `(signature, key, errors)` entries its message
reports (the message is built by iterating exactly over `created`).
`slackEntries = none` means `post_message` is never called. -/
structure ActResult where
  st : ActState
  slackEntries : Option (List (String × String × Int))
  deriving DecidableEq, Repr

/-- Lines 222-314 of `main`: skip everything when the report has no groups;
run the ticket loop; skip the Slack summary when `created` is empty,
otherwise post one aggregate message built from `created`. -/
def actPhase (report : Findings) (cache0 : List String)
    (jira : ExtGroup → Except String JiraResp) : ActResult :=
  let groups := report.groups.getD []
  if groups.isEmpty then ⟨⟨[], cache0, [], [], []⟩, none⟩
  else
    let st := groups.foldl (actStep jira) ⟨[], cache0, [], [], []⟩
    if st.created.isEmpty then ⟨st, none⟩
    else ⟨st, some st.created⟩

/-- The whole run after aggregation, for a parsed LLM result: the written
report and the act phase over it. -/
def runPipeline (lg : List LocalGroup) (f : Findings) (cache0 : List String)
    (jira : ExtGroup → Except String JiraResp) : Findings × ActResult :=
  let report := postProcess lg f
  (report, actPhase report cache0 jira)

/-! ## Concrete inputs used by witnesses and counterexamples -/

/-- The three-line input of the spec's example scenario 1. -/
def linesEx : List String :=
  ["2024-01-01 10:00:00 [ERROR] Connection refused to /srv/db/socket123",
   "2024-01-01 10:00:01 [ERROR] Connection refused to /srv/db/socket456",
   "2024-01-01 10:00:02 [INFO] Startup complete"]

/-- An external findings group whose signature matches no local group. -/
def extBogus : ExtGroup :=
  ⟨some "bogus", some 99, some ⟨0, 0, 7⟩, [], "", "", []⟩

/-- External findings carrying only the bogus group and no summary. -/
def fBogus : Findings := ⟨some [extBogus], none⟩

/-- External findings supplying a numeric in-range `error_rate` of 0.5. -/
def fHalf : Findings := ⟨some [], some ⟨none, some (.num (1/2))⟩⟩

/-- An external findings group claiming count 5. -/
def extCount5 : ExtGroup := ⟨some "g", some 5, some ⟨0, 0, 1⟩, [], "", "", []⟩

/-- External findings supplying their own `total_events` of 100 next to a
single group of count 5. -/
def fTot : Findings := ⟨some [extCount5], some ⟨some 100, none⟩⟩

/-- A findings group with a `NullPointerException` example and no
annotation (the spec's example scenario 2). -/
def gNPE : ExtGroup :=
  ⟨some "npe group", some 2, some ⟨0, 0, 2⟩,
   ["2024-01-01 10:00:00 [ERROR] NullPointerException at Foo"], "", "", []⟩

/-- A qualifying group whose ticket creation will raise. -/
def gFailEx : ExtGroup := ⟨some "db timeout", some 3, some ⟨0, 0, 3⟩, [], "", "", []⟩

/-- A qualifying group whose ticket creation will succeed. -/
def gOkEx : ExtGroup := ⟨some "disk full", some 2, some ⟨0, 0, 2⟩, [], "", "", []⟩

/-- A report whose only qualifying group fails ticket creation. -/
def reportFailOnly : Findings := ⟨some [gFailEx], none⟩

/-- External findings with one failing and one succeeding qualifying group. -/
def fTwo : Findings := ⟨some [gFailEx, gOkEx], none⟩

/-- A group with zero ERROR events. -/
def gZeroErr : ExtGroup := ⟨some "startup complete", some 1, some ⟨1, 0, 0⟩, [], "", "", []⟩

/-- A report whose only group has zero ERROR events. -/
def reportZero : Findings := ⟨some [gZeroErr], none⟩

/-- A ticket collaborator that always raises. -/
def jiraDown : ExtGroup → Except String JiraResp := fun _ => .error "boom"

/-- A ticket collaborator that raises exactly for the `"db timeout"`
signature and succeeds with key `QA-7` otherwise. -/
def jiraSelective : ExtGroup → Except String JiraResp := fun g =>
  if sigOf g = "db timeout" then .error "boom" else .ok ⟨some "QA-7", none⟩

/-- `l.filter` by an exact count value; the subsequence of groups with
count `c`, used to state stability of the sort. -/
def countFilter (c : Nat) (l : List LocalGroup) : List LocalGroup :=
  l.filter fun g => g.count == c

/-! # Theorems -/

/-! ## Lemmas about the stable descending sort -/

lemma mem_insertStable {x g : LocalGroup} {l : List LocalGroup} :
    x ∈ insertStable g l ↔ x = g ∨ x ∈ l := by
  induction l with
  | nil => simp [insertStable]
  | cons h t ih =>
    by_cases hc : h.count < g.count
    · simp [insertStable, hc, or_comm, or_assoc, or_left_comm]
    · simp [insertStable, hc, ih]
      tauto

lemma pairwise_insertStable {g : LocalGroup} {l : List LocalGroup}
    (hl : l.Pairwise fun a b => b.count ≤ a.count) :
    (insertStable g l).Pairwise fun a b => b.count ≤ a.count := by
  induction l with
  | nil => simp [insertStable]
  | cons h t ih =>
    rw [List.pairwise_cons] at hl
    by_cases hc : h.count < g.count
    · rw [insertStable, if_pos hc, List.pairwise_cons]
      refine ⟨?_, List.pairwise_cons.2 hl⟩
      intro b hb
      rcases List.mem_cons.1 hb with rfl | hbt
      · exact le_of_lt hc
      · exact le_trans (hl.1 b hbt) (le_of_lt hc)
    · rw [insertStable, if_neg hc, List.pairwise_cons]
      refine ⟨?_, ih hl.2⟩
      intro b hb
      rcases mem_insertStable.1 hb with rfl | hbt
      · exact le_of_not_lt hc
      · exact hl.1 b hbt

lemma pairwise_foldl_insertStable (l : List LocalGroup) (acc : List LocalGroup)
    (hacc : acc.Pairwise fun a b => b.count ≤ a.count) :
    (l.foldl (fun acc g => insertStable g acc) acc).Pairwise fun a b => b.count ≤ a.count := by
  induction l generalizing acc with
  | nil => exact hacc
  | cons g t ih => exact ih _ (pairwise_insertStable hacc)

lemma countFilter_eq_nil_of_lt {c : Nat} {h : LocalGroup} {t : List LocalGroup}
    (hl : (h :: t).Pairwise fun a b => b.count ≤ a.count) (hlt : h.count < c) :
    countFilter c (h :: t) = [] := by
  rw [List.pairwise_cons] at hl
  unfold countFilter
  rw [List.filter_eq_nil_iff]
  intro b hb
  rcases List.mem_cons.1 hb with rfl | hbt
  · simpa using Nat.ne_of_lt hlt
  · have : b.count < c := lt_of_le_of_lt (hl.1 b hbt) hlt
    simpa using Nat.ne_of_lt this

lemma countFilter_insertStable (c : Nat) (g : LocalGroup) :
    ∀ l : List LocalGroup, l.Pairwise (fun a b => b.count ≤ a.count) →
    countFilter c (insertStable g l) =
      if g.count = c then countFilter c l ++ [g] else countFilter c l := by
  intro l
  induction l with
  | nil =>
    intro _
    by_cases hg : g.count = c <;> simp [insertStable, countFilter, hg]
  | cons h t ih =>
    intro hl
    have hl' := hl
    rw [List.pairwise_cons] at hl'
    by_cases hc : h.count < g.count
    · by_cases hg : g.count = c
      · have hnil : countFilter c (h :: t) = [] :=
          countFilter_eq_nil_of_lt hl (hg ▸ hc)
        simp only [insertStable, countFilter] at hnil ⊢
        rw [if_pos hc, if_pos hg, List.filter_cons_of_pos (by simp [hg]), hnil]
        simp
      · simp only [insertStable, countFilter]
        rw [if_pos hc, if_neg hg, List.filter_cons_of_neg (by simp [hg])]
    · simp only [insertStable, countFilter] at ih ⊢
      rw [if_neg hc, List.filter_cons, ih hl'.2]
      by_cases hh : h.count = c <;> by_cases hg : g.count = c <;>
        simp [List.filter_cons, hh, hg]

lemma countFilter_foldl_insertStable (c : Nat) (l : List LocalGroup) (acc : List LocalGroup)
    (hacc : acc.Pairwise fun a b => b.count ≤ a.count) :
    countFilter c (l.foldl (fun acc g => insertStable g acc) acc) =
      countFilter c acc ++ countFilter c l := by
  induction l generalizing acc with
  | nil => simp [countFilter]
  | cons g t ih =>
    rw [List.foldl_cons, ih _ (pairwise_insertStable hacc),
      countFilter_insertStable c g _ hacc]
    by_cases hg : g.count = c <;>
      simp [countFilter, List.filter_cons, hg, List.append_assoc]

/-! ## Claim theorems C5, C6, C7 -/

/-- C5: for every message, the signature is the space-join of the first 4
whitespace-delimited tokens of the normalized message (lower-case, paths,
digit runs and non-letters replaced by spaces, whitespace collapsed and
trimmed), and whenever zero tokens remain the signature is the first 32
characters of the original, pre-normalization message. -/
theorem claim_C5_thm (msg : String) :
    (signatureTokens msg = [] → compute_signature msg = String.mk (msg.toList.take 32)) ∧
    (signatureTokens msg ≠ [] →
      compute_signature msg = " ".intercalate ((signatureTokens msg).take 4)) := by
  constructor <;> intro h <;>
    simp [compute_signature, List.isEmpty_iff, h]

/-- Witness for C5: a path- and digit-laden message normalizes to its first
tokens, and a purely numeric/symbolic message falls back to the first 32
characters of the original message. -/
theorem claim_C5_witness :
    (signatureTokens "Connection refused to /srv/db/socket123" ≠ [] ∧
      compute_signature "Connection refused to /srv/db/socket123" =
        " ".intercalate ((signatureTokens "Connection refused to /srv/db/socket123").take 4)) ∧
    (signatureTokens "123 456 --- !!" = [] ∧
      compute_signature "123 456 --- !!" = String.mk ("123 456 --- !!".toList.take 32)) :=
  ⟨⟨by decide, (claim_C5_thm _).2 (by decide)⟩,
   ⟨by decide, (claim_C5_thm _).1 (by decide)⟩⟩

/-- C6: the group list returned by the aggregator is sorted by count
descending, and the subsequence of groups of any fixed count is exactly the
corresponding subsequence of the insertion-ordered (first-seen) group dict:
ties keep first-seen order, i.e. the sort is stable. -/
theorem claim_C6_thm (lines : List String) :
    (group_events lines).Pairwise (fun a b => b.count ≤ a.count) ∧
    ∀ c, countFilter c (group_events lines) = countFilter c (aggList lines) := by
  constructor
  · exact pairwise_foldl_insertStable _ _ (List.Pairwise.nil)
  · intro c
    unfold group_events sortCountDesc
    rw [countFilter_foldl_insertStable c _ _ (List.Pairwise.nil)]
    simp [countFilter]

/-- C7: a line the parser rejects contributes nothing: deleting it from the
input leaves the aggregated group list unchanged. -/
theorem claim_C7_thm (xs ys : List String) (line : String)
    (h : parse_log_line line = none) :
    group_events (xs ++ line :: ys) = group_events (xs ++ ys) := by
  have hstep : ∀ acc, addLine acc line = acc := by
    intro acc; unfold addLine; rw [h]
  unfold group_events aggList
  rw [List.foldl_append, List.foldl_append, List.foldl_cons, hstep]

/-- Witness for C7: a free-text line and a `[DEBUG]` line are rejected and
leave the groups of the example input unchanged. -/
theorem claim_C7_witness :
    (parse_log_line "not a log line" = none ∧
      parse_log_line "2024-01-01 10:00:00 [DEBUG] cache warm" = none) ∧
    group_events
        (["2024-01-01 10:00:00 [ERROR] Connection refused to /srv/db/socket123"] ++
          "not a log line" :: []) =
      group_events
        (["2024-01-01 10:00:00 [ERROR] Connection refused to /srv/db/socket123"] ++ []) ∧
    group_events ([] ++ "2024-01-01 10:00:00 [DEBUG] cache warm" :: linesEx) =
      group_events ([] ++ linesEx) :=
  ⟨⟨by decide, by decide⟩,
   claim_C7_thm _ _ _ (by decide),
   claim_C7_thm _ _ _ (by decide)⟩

/-! ## Claim theorems C1-C4 (the report assembled from the LLM findings) -/

lemma coreOf_fallbackEnrich (g : ExtGroup) : coreOf (fallbackEnrich g) = coreOf g := by
  unfold fallbackEnrich
  by_cases h : g.probable_root_cause ≠ ""
  · rw [if_pos h]
  · rw [if_neg h]
    cases extract_exceptions g.examples <;> rfl

/-- C1 fails on the code: there is no annotation merger.  With the
authoritative aggregation of the example input (signatures
"connection refused to" and "startup complete"), an external result whose
only group has the locally unknown signature "bogus" yields a final report
whose group list is exactly that external list: the authoritative
signatures are dropped and the unknown external group is kept. -/
theorem claim_C1_counterexample :
    ((postProcess (group_events linesEx) fBogus).groups.getD []).map sigOf = ["bogus"] ∧
    (group_events linesEx).map (fun g => g.signature) =
      ["connection refused to", "startup complete"] ∧
    ¬ ∃ g ∈ group_events linesEx, g.signature = "bogus" := by
  refine ⟨by decide, by decide, ?_⟩
  decide

/-- C1 amended: the pipeline performs no reconciliation at all — the final
report's group list is the external list as supplied (same signatures,
counts, levels, examples and order, with only the two narrative fields
possibly filled in by the fallback extractor); the authoritative local
groups do not constrain it and unknown external signatures are kept. -/
theorem claim_C1_thm (lg : List LocalGroup) (f : Findings) :
    (postProcess lg f).groups.map (fun gs => gs.map coreOf) =
      f.groups.map (fun gs => gs.map coreOf) := by
  cases hf : f.groups with
  | none => simp [postProcess, hf]
  | some gs => simp [postProcess, hf, coreOf_fallbackEnrich]

lemma reportErrorRate_postProcess (lg : List LocalGroup) (f : Findings) :
    reportErrorRate (postProcess lg f) =
      if erInRange (f.summary.getD ⟨none, none⟩).error_rate
      then (f.summary.getD ⟨none, none⟩).error_rate
      else some (.num (computedErrorRate lg)) := by
  unfold reportErrorRate postProcess
  cases f.summary <;> dsimp <;> split <;> simp_all

/-- C2 fails on the code: an externally supplied numeric `error_rate`
inside `[0, 1]` is kept verbatim.  On a one-INFO-line input the locally
computed rate is 0, yet the report carries the external 0.5. -/
theorem claim_C2_counterexample :
    reportErrorRate
        (postProcess (group_events ["2024-01-01 10:00:02 [INFO] Startup complete"]) fHalf) =
      some (.num (1/2)) ∧
    computedErrorRate (group_events ["2024-01-01 10:00:02 [INFO] Startup complete"]) = 0 ∧
    ((1 : ℚ)/2) ≠ 0 := by
  refine ⟨?_, ?_, by norm_num⟩
  · rw [reportErrorRate_postProcess]
    norm_num [fHalf, erInRange]
  · have h0 : localErrors (group_events ["2024-01-01 10:00:02 [INFO] Startup complete"]) = 0 := by
      decide
    have h1 : localTotal (group_events ["2024-01-01 10:00:02 [INFO] Startup complete"]) = 1 := by
      decide
    unfold computedErrorRate
    rw [h0, h1]
    norm_num [pyRound3]

/-- C2 amended: `error_rate` is recomputed locally — as
`round(sum(ERROR counts) / max(1, total_events), 3)` — only when the
externally supplied value is missing, non-numeric, or outside `[0, 1]`;
an externally supplied numeric value within `[0, 1]` is kept verbatim. -/
theorem claim_C2_thm (lg : List LocalGroup) (f : Findings) :
    (erInRange (f.summary.getD ⟨none, none⟩).error_rate = true →
      reportErrorRate (postProcess lg f) = (f.summary.getD ⟨none, none⟩).error_rate) ∧
    (erInRange (f.summary.getD ⟨none, none⟩).error_rate = false →
      reportErrorRate (postProcess lg f) = some (.num (computedErrorRate lg))) := by
  constructor <;> intro h <;> rw [reportErrorRate_postProcess, h] <;> simp

/-- Witness for the amended C2: the in-range external rate 0.5 survives
post-processing of the example input. -/
theorem claim_C2_witness :
    erInRange (fHalf.summary.getD ⟨none, none⟩).error_rate = true ∧
    reportErrorRate (postProcess (group_events linesEx) fHalf) = some (.num (1/2)) :=
  ⟨by norm_num [fHalf, erInRange],
   ((claim_C2_thm (group_events linesEx) fHalf).1 (by norm_num [fHalf, erInRange])).trans rfl⟩

/-- C3 fails on the code: `summary.setdefault("total_events", total)` keeps
an externally supplied total, so a report carrying external groups summing
to 5 can report `total_events = 100`. -/
theorem claim_C3_counterexample :
    reportTotal (postProcess [] fTot) = some 100 ∧
    (((postProcess [] fTot).groups.getD []).map (fun g => g.count.getD 0)).sum = 5 ∧
    reportTotal (postProcess [] fTot) ≠
      some ((((postProcess [] fTot).groups.getD []).map (fun g => g.count.getD 0)).sum) := by
  refine ⟨by decide, by decide, by decide⟩

/-- C3 amended: `summary.total_events` equals the locally computed sum of
the authoritative group counts whenever the external result supplies no
`total_events` (in particular when it supplies no summary at all); an
externally supplied value is kept verbatim and need not equal the sum of
the counts of the report's own groups. -/
theorem claim_C3_thm (lg : List LocalGroup) (f : Findings)
    (h : (f.summary.getD ⟨none, none⟩).total_events = none) :
    reportTotal (postProcess lg f) = some ((localTotal lg : Int)) := by
  unfold reportTotal postProcess
  dsimp only
  split <;> simp_all

/-- Witness for the amended C3: with no external summary, the report's
total is the local total of the example input, namely 3. -/
theorem claim_C3_witness :
    ((Findings.mk none none).summary.getD ⟨none, none⟩).total_events = none ∧
    reportTotal (postProcess (group_events linesEx) ⟨none, none⟩) = some ((3 : Int)) :=
  ⟨rfl, (claim_C3_thm (group_events linesEx) ⟨none, none⟩ rfl).trans (by decide)⟩

/-- C4 fails on the code for the CLI agent: `parse_llm_output` persists the
raw text but then raises a `RuntimeError` that `main` does not catch, so on
unparseable output the CLI pipeline aborts and no report is produced. -/
theorem claim_C4_counterexample :
    (parse_llm_output (.unparseable "not json")).savedRaw = some "not json" ∧
    isOkE (cli_report (group_events linesEx) (.unparseable "not json")) = false :=
  ⟨rfl, rfl⟩

/-- C4 amended: only the graph pipeline treats unparseable text-generation
output as an empty annotation set (`groups = []`, a summary holding the
locally computed total) and continues after persisting the raw text; the
CLI agent persists the raw text but raises, producing no report. -/
theorem claim_C4_thm (raw : String) (total : Int) (lg : List LocalGroup) :
    (analyze_with_llm (.unparseable raw) total).1 = some raw ∧
    (analyze_with_llm (.unparseable raw) total).2 = ⟨some [], some ⟨some total, none⟩⟩ ∧
    (parse_llm_output (.unparseable raw)).savedRaw = some raw ∧
    ∀ f : Findings, cli_report lg (.unparseable raw) ≠ .ok f := by
  refine ⟨rfl, rfl, rfl, fun f h => ?_⟩
  simp [cli_report, parse_llm_output] at h

/-- Witness for the amended C4 at a concrete unparseable output. -/
theorem claim_C4_witness :
    cli_report [] (.unparseable "oops") ≠ .ok ⟨none, none⟩ :=
  (claim_C4_thm "oops" 0 []).2.2.2 ⟨none, none⟩

/-! ## Claim theorem C8 (fallback extractor) -/

lemma nodup_dedupFirst_aux (l : List String) :
    ∀ acc : List String, acc.Nodup →
      (l.foldl (fun acc f => if f ∈ acc then acc else acc ++ [f]) acc).Nodup := by
  induction l with
  | nil => intro acc ha; exact ha
  | cons x t ih =>
    intro acc ha
    rw [List.foldl_cons]
    by_cases hx : x ∈ acc
    · rw [if_pos hx]; exact ih acc ha
    · rw [if_neg hx]
      refine ih _ ?_
      simp [List.nodup_append, ha, hx]

lemma dedupFirst_nodup (l : List String) : (dedupFirst l).Nodup :=
  nodup_dedupFirst_aux l [] List.nodup_nil

/-- C8: for a group whose `probable_root_cause` is empty, the extracted
exception-token list is duplicate-free (first-seen order is definitional);
when it is empty the group is unchanged (no error), and when tokens were
found `probable_root_cause` becomes the comma-joined list, the templated
recommendation is set exactly when `recommendation` was empty, and all other
fields are untouched. -/
theorem claim_C8_thm (g : ExtGroup) (h : g.probable_root_cause = "") :
    (extract_exceptions g.examples).Nodup ∧
    (extract_exceptions g.examples = [] → fallbackEnrich g = g) ∧
    ∀ e es, extract_exceptions g.examples = e :: es →
      (fallbackEnrich g).probable_root_cause = ", ".intercalate (e :: es) ∧
      (fallbackEnrich g).recommendation =
        (if g.recommendation = "" then "Investigate " ++ e ++ " and related services"
         else g.recommendation) ∧
      coreOf (fallbackEnrich g) = coreOf g := by
  have hne : ¬ g.probable_root_cause ≠ "" := by simp [h]
  refine ⟨dedupFirst_nodup _, fun he => ?_, fun e es he => ?_⟩
  · unfold fallbackEnrich
    rw [if_neg hne, he]
  · unfold fallbackEnrich
    rw [if_neg hne, he]
    exact ⟨rfl, rfl, rfl⟩

/-- Witness for C8: the spec's scenario 2 — a group with a
`NullPointerException` example and no annotation gets that token as root
cause and a recommendation referencing it. -/
theorem claim_C8_witness :
    gNPE.probable_root_cause = "" ∧
    extract_exceptions gNPE.examples = ["NullPointerException"] ∧
    (fallbackEnrich gNPE).probable_root_cause = "NullPointerException" ∧
    (fallbackEnrich gNPE).recommendation =
      "Investigate NullPointerException and related services" :=
  ⟨rfl, by decide,
   (((claim_C8_thm gNPE rfl).2.2 "NullPointerException" [] (by decide)).1).trans (by decide),
   (((claim_C8_thm gNPE rfl).2.2 "NullPointerException" [] (by decide)).2.1).trans (by decide)⟩

/-! ## Lemmas about the ticket loop -/

lemma actStep_cache_sub (jira : ExtGroup → Except String JiraResp) (st : ActState) (g : ExtGroup) :
    st.cache ⊆ (actStep jira st g).cache := by
  unfold actStep
  split
  · exact List.Subset.refl _
  split
  · exact List.Subset.refl _
  split
  · exact List.subset_append_left _ _
  · exact List.Subset.refl _

lemma actStep_cache_cases (jira : ExtGroup → Except String JiraResp) (st : ActState) (g : ExtGroup) :
    (actStep jira st g).cache = st.cache ∨ (actStep jira st g).cache = st.cache ++ [sigOf g] := by
  unfold actStep
  split
  · exact Or.inl rfl
  split
  · exact Or.inl rfl
  split
  · exact Or.inr rfl
  · exact Or.inl rfl

lemma actStep_created_sub (jira : ExtGroup → Except String JiraResp) (st : ActState) (g : ExtGroup) :
    st.created ⊆ (actStep jira st g).created := by
  unfold actStep
  split
  · exact List.Subset.refl _
  split
  · exact List.subset_append_left _ _
  split
  · exact List.subset_append_left _ _
  · exact List.Subset.refl _

lemma actStep_failed_sub (jira : ExtGroup → Except String JiraResp) (st : ActState) (g : ExtGroup) :
    st.failed ⊆ (actStep jira st g).failed := by
  unfold actStep
  split
  · exact List.Subset.refl _
  split
  · exact List.Subset.refl _
  split
  · exact List.Subset.refl _
  · exact List.subset_append_left _ _

lemma actFold_created_sub (jira : ExtGroup → Except String JiraResp) (gs : List ExtGroup) :
    ∀ st : ActState, st.created ⊆ (gs.foldl (actStep jira) st).created := by
  induction gs with
  | nil => intro st; exact List.Subset.refl _
  | cons g t ih =>
    intro st
    rw [List.foldl_cons]
    exact (actStep_created_sub jira st g).trans (ih _)

lemma actFold_failed_sub (jira : ExtGroup → Except String JiraResp) (gs : List ExtGroup) :
    ∀ st : ActState, st.failed ⊆ (gs.foldl (actStep jira) st).failed := by
  induction gs with
  | nil => intro st; exact List.Subset.refl _
  | cons g t ih =>
    intro st
    rw [List.foldl_cons]
    exact (actStep_failed_sub jira st g).trans (ih _)

lemma actStep_attempted_spec (jira : ExtGroup → Except String JiraResp) (st : ActState)
    (g : ExtGroup) (s : String) (hs : s ∈ (actStep jira st g).attempted) :
    s ∈ st.attempted ∨ (sigOf g = s ∧ 0 < errOf g ∧ s ∉ st.cache) := by
  unfold actStep at hs
  by_cases h1 : errOf g ≤ 0
  · rw [if_pos h1] at hs
    exact Or.inl hs
  · rw [if_neg h1] at hs
    by_cases h2 : sigOf g ∈ st.cache
    · rw [if_pos h2] at hs
      exact Or.inl hs
    · rw [if_neg h2] at hs
      have herr : 0 < errOf g := lt_of_not_le h1
      cases hj : jira g with
      | ok r =>
        rw [hj] at hs
        dsimp at hs
        rcases List.mem_append.1 hs with h | h
        · exact Or.inl h
        · have hse : s = sigOf g := by simpa using h
          subst hse
          exact Or.inr ⟨rfl, herr, h2⟩
      | error err =>
        rw [hj] at hs
        dsimp at hs
        rcases List.mem_append.1 hs with h | h
        · exact Or.inl h
        · have hse : s = sigOf g := by simpa using h
          subst hse
          exact Or.inr ⟨rfl, herr, h2⟩

lemma actFold_attempted_spec (jira : ExtGroup → Except String JiraResp) (gs : List ExtGroup) :
    ∀ (st : ActState) (s : String), s ∈ (gs.foldl (actStep jira) st).attempted →
      s ∈ st.attempted ∨ ∃ g, g ∈ gs ∧ sigOf g = s ∧ 0 < errOf g ∧ s ∉ st.cache := by
  induction gs with
  | nil => intro st s hs; exact Or.inl hs
  | cons g0 t ih =>
    intro st s hs
    rw [List.foldl_cons] at hs
    rcases ih _ s hs with h | ⟨g', hg', hsig, herr, hc⟩
    · rcases actStep_attempted_spec jira st g0 s h with h' | ⟨hsig, herr, hc⟩
      · exact Or.inl h'
      · exact Or.inr ⟨g0, List.mem_cons_self _ _, hsig, herr, hc⟩
    · exact Or.inr ⟨g', List.mem_cons_of_mem _ hg', hsig, herr,
        fun hin => hc (actStep_cache_sub jira st g0 hin)⟩

lemma actStep_marked_sub (jira : ExtGroup → Except String JiraResp) (st : ActState)
    (g : ExtGroup) (h : st.marked ⊆ st.attempted) :
    (actStep jira st g).marked ⊆ (actStep jira st g).attempted := by
  unfold actStep
  split
  · exact h
  split
  · exact h
  split
  · intro x hx
    rcases List.mem_append.1 hx with hx | hx
    · exact List.mem_append_left _ (h hx)
    · exact List.mem_append_right _ hx
  · exact fun x hx => List.mem_append_left _ (h hx)

lemma actFold_marked_sub (jira : ExtGroup → Except String JiraResp) (gs : List ExtGroup) :
    ∀ st : ActState, st.marked ⊆ st.attempted →
      (gs.foldl (actStep jira) st).marked ⊆ (gs.foldl (actStep jira) st).attempted := by
  induction gs with
  | nil => intro st h; exact h
  | cons g t ih =>
    intro st h
    rw [List.foldl_cons]
    exact ih _ (actStep_marked_sub jira st g h)

lemma actStep_avoid (jira : ExtGroup → Except String JiraResp) (st : ActState)
    (g0 gf : ExtGroup) (e : String) (hjf : jira gf = .error e)
    (hne : sigOf g0 = sigOf gf → g0 = gf)
    (hc : sigOf gf ∉ st.cache) (hcr : sigOf gf ∉ st.created.map Prod.fst) :
    sigOf gf ∉ (actStep jira st g0).cache ∧
      sigOf gf ∉ (actStep jira st g0).created.map Prod.fst := by
  unfold actStep
  by_cases h1 : errOf g0 ≤ 0
  · rw [if_pos h1]; exact ⟨hc, hcr⟩
  · rw [if_neg h1]
    by_cases h2 : sigOf g0 ∈ st.cache
    · rw [if_pos h2]
      refine ⟨hc, ?_⟩
      dsimp
      rw [List.map_append]
      intro hx
      rcases List.mem_append.1 hx with hx | hx
      · exact hcr hx
      · have hx' : sigOf gf = sigOf g0 := by simpa using hx
        rw [← hx'] at h2
        exact hc h2
    · rw [if_neg h2]
      cases hj : jira g0 with
      | ok r =>
        have hdiff : sigOf g0 ≠ sigOf gf := by
          intro hx
          rw [hne hx, hjf] at hj
          cases hj
        dsimp
        constructor
        · intro hx
          rcases List.mem_append.1 hx with hx | hx
          · exact hc hx
          · have hx' : sigOf gf = sigOf g0 := by simpa using hx
            exact hdiff hx'.symm
        · rw [List.map_append]
          intro hx
          rcases List.mem_append.1 hx with hx | hx
          · exact hcr hx
          · have hx' : sigOf gf = sigOf g0 := by simpa using hx
            exact hdiff hx'.symm
      | error err =>
        exact ⟨hc, hcr⟩

lemma actFold_avoid (jira : ExtGroup → Except String JiraResp) (gf : ExtGroup) (e : String)
    (hjf : jira gf = .error e) (gs : List ExtGroup) :
    ∀ st : ActState, (∀ g', g' ∈ gs → sigOf g' = sigOf gf → g' = gf) →
      sigOf gf ∉ st.cache → sigOf gf ∉ st.created.map Prod.fst →
      sigOf gf ∉ (gs.foldl (actStep jira) st).cache ∧
        sigOf gf ∉ (gs.foldl (actStep jira) st).created.map Prod.fst := by
  induction gs with
  | nil => intro st _ hc hcr; exact ⟨hc, hcr⟩
  | cons g0 t ih =>
    intro st hinj hc hcr
    rw [List.foldl_cons]
    have hstep := actStep_avoid jira st g0 gf e hjf
      (hinj g0 (List.mem_cons_self _ _)) hc hcr
    exact ih _ (fun g' hg' => hinj g' (List.mem_cons_of_mem _ hg')) hstep.1 hstep.2

lemma actFold_created_of_ok (jira : ExtGroup → Except String JiraResp) (resp : JiraResp)
    (gs : List ExtGroup) (g : ExtGroup) (hj : jira g = .ok resp) :
    ∀ st : ActState, g ∈ gs → 0 < errOf g → sigOf g ∉ st.cache →
      (∀ g', g' ∈ gs → sigOf g' = sigOf g → g' = g) →
      (sigOf g, issueKeyOf resp, errOf g) ∈ (gs.foldl (actStep jira) st).created := by
  induction gs with
  | nil => intro st h; cases h
  | cons g0 t ih =>
    intro st hmem herr hc hinj
    rw [List.foldl_cons]
    by_cases hg0 : g0 = g
    · subst hg0
      have hstep : (sigOf g0, issueKeyOf resp, errOf g0) ∈ (actStep jira st g0).created := by
        unfold actStep
        rw [if_neg (not_le.2 herr), if_neg hc, hj]
        simp
      exact actFold_created_sub jira t _ hstep
    · have hmem' : g ∈ t := by
        rcases List.mem_cons.1 hmem with h | h
        · exact absurd h.symm hg0
        · exact h
      have hdiff : sigOf g0 ≠ sigOf g :=
        fun hx => hg0 (hinj g0 (List.mem_cons_self _ _) hx)
      have hc' : sigOf g ∉ (actStep jira st g0).cache := by
        rcases actStep_cache_cases jira st g0 with hca | hca <;> rw [hca]
        · exact hc
        · intro hx
          rcases List.mem_append.1 hx with hx | hx
          · exact hc hx
          · have hx2 : sigOf g = sigOf g0 := by simpa using hx
            exact hdiff hx2.symm
      exact ih _ hmem' herr hc' (fun g' hg' => hinj g' (List.mem_cons_of_mem _ hg'))

lemma actFold_failed_of_error (jira : ExtGroup → Except String JiraResp) (e : String)
    (gs : List ExtGroup) (gf : ExtGroup) (hj : jira gf = .error e) :
    ∀ st : ActState, gf ∈ gs → 0 < errOf gf → sigOf gf ∉ st.cache →
      (∀ g', g' ∈ gs → sigOf g' = sigOf gf → g' = gf) →
      sigOf gf ∈ (gs.foldl (actStep jira) st).failed := by
  induction gs with
  | nil => intro st h; cases h
  | cons g0 t ih =>
    intro st hmem herr hc hinj
    rw [List.foldl_cons]
    by_cases hg0 : g0 = gf
    · subst hg0
      have hstep : sigOf g0 ∈ (actStep jira st g0).failed := by
        unfold actStep
        rw [if_neg (not_le.2 herr), if_neg hc, hj]
        simp
      exact actFold_failed_sub jira t _ hstep
    · have hmem' : gf ∈ t := by
        rcases List.mem_cons.1 hmem with h | h
        · exact absurd h.symm hg0
        · exact h
      have hdiff : sigOf g0 ≠ sigOf gf :=
        fun hx => hg0 (hinj g0 (List.mem_cons_self _ _) hx)
      have hc' : sigOf gf ∉ (actStep jira st g0).cache := by
        rcases actStep_cache_cases jira st g0 with hca | hca <;> rw [hca]
        · exact hc
        · intro hx
          rcases List.mem_append.1 hx with hx | hx
          · exact hc hx
          · have hx2 : sigOf gf = sigOf g0 := by simpa using hx
            exact hdiff hx2.symm
      exact ih _ hmem' herr hc' (fun g' hg' => hinj g' (List.mem_cons_of_mem _ hg'))

lemma actPhase_st (report : Findings) (cache0 : List String)
    (jira : ExtGroup → Except String JiraResp) :
    (actPhase report cache0 jira).st =
      if (report.groups.getD []).isEmpty then ⟨[], cache0, [], [], []⟩
      else (report.groups.getD []).foldl (actStep jira) ⟨[], cache0, [], [], []⟩ := by
  unfold actPhase
  dsimp only
  split
  · rfl
  · split <;> rfl

lemma actPhase_slack (report : Findings) (cache0 : List String)
    (jira : ExtGroup → Except String JiraResp) :
    (actPhase report cache0 jira).slackEntries =
      if (actPhase report cache0 jira).st.created.isEmpty then none
      else some (actPhase report cache0 jira).st.created := by
  unfold actPhase
  dsimp only
  split
  · rfl
  · split <;> simp_all

/-! ## Claim theorems C9, C10 -/

/-- C9 fails on the code as universally stated: when the ticket collaborator
raises for the only qualifying group, `created` stays empty and the code
returns before the Slack block, so the aggregate notification does not fire
at all. -/
theorem claim_C9_counterexample :
    0 < errOf gFailEx ∧
    (actPhase reportFailOnly [] jiraDown).st.failed = ["db timeout"] ∧
    (actPhase reportFailOnly [] jiraDown).slackEntries = none := by
  refine ⟨by decide, by decide, by decide⟩

/-- C9 amended: when the ticket collaborator raises for one qualifying
group, the loop still processes the remaining groups (a qualifying group
with a successful creation still yields its created entry), the failed
group is recorded as failed and yields no created entry, the written report
is unchanged, and — provided at least one entry was created or deduplicated,
e.g. the succeeding group — the single aggregate notification fires and
mentions exactly the recorded `created` entries. -/
theorem claim_C9_thm (lg : List LocalGroup) (f : Findings) (cache0 : List String)
    (jira : ExtGroup → Except String JiraResp) (gf gsu : ExtGroup) (e : String) (resp : JiraResp)
    (hnd : (((postProcess lg f).groups.getD []).map sigOf).Nodup)
    (hgf : gf ∈ (postProcess lg f).groups.getD []) (hgferr : 0 < errOf gf)
    (hgfc : sigOf gf ∉ cache0) (hjf : jira gf = .error e)
    (hgs : gsu ∈ (postProcess lg f).groups.getD []) (hgserr : 0 < errOf gsu)
    (hgsc : sigOf gsu ∉ cache0) (hjs : jira gsu = .ok resp) :
    (runPipeline lg f cache0 jira).1 = postProcess lg f ∧
    (sigOf gsu, issueKeyOf resp, errOf gsu) ∈ (runPipeline lg f cache0 jira).2.st.created ∧
    sigOf gf ∈ (runPipeline lg f cache0 jira).2.st.failed ∧
    sigOf gf ∉ ((runPipeline lg f cache0 jira).2.st.created).map Prod.fst ∧
    (runPipeline lg f cache0 jira).2.slackEntries =
      some ((runPipeline lg f cache0 jira).2.st.created) := by
  have hinj := List.inj_on_of_nodup_map hnd
  have hne : ¬ ((postProcess lg f).groups.getD []).isEmpty = true := by
    cases hg : (postProcess lg f).groups.getD [] with
    | nil => rw [hg] at hgf; cases hgf
    | cons a t => simp
  have h2 : (runPipeline lg f cache0 jira).2 = actPhase (postProcess lg f) cache0 jira := rfl
  have hst : (runPipeline lg f cache0 jira).2.st =
      ((postProcess lg f).groups.getD []).foldl (actStep jira) ⟨[], cache0, [], [], []⟩ := by
    rw [h2, actPhase_st, if_neg hne]
  have hcreated : (sigOf gsu, issueKeyOf resp, errOf gsu) ∈
      (runPipeline lg f cache0 jira).2.st.created := by
    rw [hst]
    exact actFold_created_of_ok jira resp _ gsu hjs _ hgs hgserr hgsc
      (fun g' hg' hsig => hinj hg' hgs hsig)
  have hfailed : sigOf gf ∈ (runPipeline lg f cache0 jira).2.st.failed := by
    rw [hst]
    exact actFold_failed_of_error jira e _ gf hjf _ hgf hgferr hgfc
      (fun g' hg' hsig => hinj hg' hgf hsig)
  have havoid : sigOf gf ∉ ((runPipeline lg f cache0 jira).2.st.created).map Prod.fst := by
    rw [hst]
    exact (actFold_avoid jira gf e hjf _ _
      (fun g' hg' hsig => hinj hg' hgf hsig) hgfc (by simp)).2
  refine ⟨rfl, hcreated, hfailed, havoid, ?_⟩
  have hnonempty : ¬ (runPipeline lg f cache0 jira).2.st.created.isEmpty = true := by
    cases hcr : (runPipeline lg f cache0 jira).2.st.created with
    | nil => rw [hcr] at hcreated; cases hcreated
    | cons a t => simp
  rw [h2, actPhase_slack, if_neg (by rw [← h2]; exact hnonempty)]

/-- Witness for the amended C9: with one failing and one succeeding
qualifying group, the succeeding group's ticket is created, the failure is
recorded, no created entry carries the failed signature, and the
notification fires with exactly the created entries. -/
theorem claim_C9_witness :
    ("disk full", "QA-7", (2 : Int)) ∈ (runPipeline [] fTwo [] jiraSelective).2.st.created ∧
    "db timeout" ∈ (runPipeline [] fTwo [] jiraSelective).2.st.failed ∧
    "db timeout" ∉ ((runPipeline [] fTwo [] jiraSelective).2.st.created).map Prod.fst ∧
    (runPipeline [] fTwo [] jiraSelective).2.slackEntries =
      some ((runPipeline [] fTwo [] jiraSelective).2.st.created) := by
  have h := claim_C9_thm [] fTwo [] jiraSelective gFailEx gOkEx "boom" ⟨some "QA-7", none⟩
    (by decide) (by decide) (by decide) (by decide) rfl (by decide) (by decide) (by decide) rfl
  exact ⟨h.2.1, h.2.2.1, h.2.2.2.1, h.2.2.2.2⟩

/-- C10: Jira creation is attempted only for groups with a strictly
positive ERROR count whose signature is not already in today's dedupe
cache; dedupe writes happen only for attempted (hence qualifying) groups;
and when no group yields a created-or-deduplicated entry, the aggregate
notification is not sent at all. -/
theorem claim_C10_thm (report : Findings) (cache0 : List String)
    (jira : ExtGroup → Except String JiraResp) :
    (∀ s ∈ (actPhase report cache0 jira).st.attempted,
      ∃ g, g ∈ report.groups.getD [] ∧ sigOf g = s ∧ 0 < errOf g ∧ s ∉ cache0) ∧
    (∀ s ∈ (actPhase report cache0 jira).st.marked,
      s ∈ (actPhase report cache0 jira).st.attempted) ∧
    ((actPhase report cache0 jira).st.created = [] →
      (actPhase report cache0 jira).slackEntries = none) := by
  refine ⟨?_, ?_, ?_⟩
  · intro s hs
    rw [actPhase_st] at hs
    by_cases hemp : (report.groups.getD []).isEmpty
    · rw [if_pos hemp] at hs
      cases hs
    · rw [if_neg hemp] at hs
      rcases actFold_attempted_spec jira _ _ s hs with h | ⟨g, hg, hsig, herr, hc⟩
      · cases h
      · exact ⟨g, hg, hsig, herr, hc⟩
  · intro s hs
    rw [actPhase_st] at hs ⊢
    by_cases hemp : (report.groups.getD []).isEmpty
    · rw [if_pos hemp] at hs
      cases hs
    · rw [if_neg hemp] at hs ⊢
      exact actFold_marked_sub jira _ _ (List.Subset.refl _) hs
  · intro h
    rw [actPhase_slack, h]
    rfl

/-- Witness for C10: a report whose only group has zero ERROR events makes
no Jira attempt, writes nothing to the dedupe cache, and sends no
notification. -/
theorem claim_C10_witness :
    (actPhase reportZero [] jiraSelective).st.attempted = [] ∧
    (actPhase reportZero [] jiraSelective).st.marked = [] ∧
    (actPhase reportZero [] jiraSelective).st.created = [] ∧
    (actPhase reportZero [] jiraSelective).slackEntries = none :=
  ⟨by decide, by decide, by decide,
   (claim_C10_thm reportZero [] jiraSelective).2.2 (by decide)⟩

end LogTriage
